import Mathlib

/-!
Verification development for the mlflow-demo email generation service.

The definitions below are a shallow embedding of the Python sources:

* `mlflow_demo/agent/email_generator.py` — the `EmailGenerator` class:
  `_clean_json_response`, `_create_messages`, `_retrieve_customer_data`,
  `_format_json_as_markdown`, `_stream_email_reducer_static`,
  `generate_email_with_retrieval`, `log_feedback`.
* `server/routes/email.py` — the SSE streaming endpoint generator and the
  `/api/companies` listing.

Modelling conventions:

* Python strings are Lean `String`s (lists of unicode scalar values); the
  whitespace set used by `str.strip` is modelled over its ASCII members.
* Python `dict`s with string keys are association lists in insertion order;
  a value of Python `None` is `Option.none` where a field is typed
  `Option _`.
* `json.loads` (an external library call) is modelled by an executable
  recursive-descent reader `pyJsonLoads` over the same grammar; its error
  messages are abbreviations of CPython's, and float literals are rejected
  (no claim involves them).
* Raising an uncaught exception is modelled by returning `Option.none` or
  `Except.error` as indicated at each definition.
-/

namespace MlflowDemo

/-! ## Python string primitives -/

/-- Whitespace characters stripped by Python `str.strip()` (ASCII part). -/
def isPySpace (c : Char) : Bool :=
  c == ' ' || c == '\t' || c == '\n' || c == '\r' || c == '\x0b' || c == '\x0c'

/-- Strip `isPySpace` characters from both ends of a character list. -/
def stripL (l : List Char) : List Char :=
  ((l.dropWhile isPySpace).reverse.dropWhile isPySpace).reverse

/-- Python `s.strip()`. -/
def pyStrip (s : String) : String := String.mk (stripL s.data)

/-- Does `p` occur at the head of `l`? (helper for `startswith`/`endswith`). -/
def lStarts : List Char → List Char → Bool
  | [], _ => true
  | _ :: _, [] => false
  | a :: ps, b :: ls => a == b && lStarts ps ls

/-- Python `s.startswith(p)`. -/
def sStarts (s p : String) : Bool := lStarts p.data s.data

theorem lStarts_of_append {p q l : List Char}
    (h : lStarts (p ++ q) l = true) : lStarts p l = true := by
  induction p generalizing l with
  | nil => simp [lStarts]
  | cons a ps ih =>
    cases l with
    | nil => simp [lStarts] at h
    | cons b ls =>
      simp only [List.cons_append, lStarts, Bool.and_eq_true] at h ⊢
      exact ⟨h.1, ih h.2⟩

/-- Python `s.endswith(p)`. -/
def sEnds (s p : String) : Bool := lStarts p.data.reverse s.data.reverse

/-- Python slice `s[a : len(s)-b]` (used as `s[a : -b]` on nonempty cuts). -/
def pySlice (s : String) (a b : Nat) : String :=
  let t := s.data.drop a
  String.mk (t.take (t.length - b))

/-- Python `s.replace(c, d)` for single-character needles. -/
def pyReplaceChar (s : String) (c d : Char) : String :=
  String.mk (s.data.map (fun x => if x == c then d else x))

/-- Helper for `pyTitle`: the flag records whether the previous character
was alphabetic (cased). -/
def titleGo : Bool → List Char → List Char
  | _, [] => []
  | prev, c :: cs =>
    if c.isAlpha then
      (if prev then c.toLower else c.toUpper) :: titleGo true cs
    else
      c :: titleGo false cs

/-- Python `s.title()` (over alphabetic ASCII characters). -/
def pyTitle (s : String) : String := String.mk (titleGo false s.data)

/-- Python truthiness of an optional string (`None` and `''` are falsy). -/
def truthyStr : Option String → Bool
  | none => false
  | some s => s != ""

/-! ## JSON values and the `json.loads` model -/

/-- JSON values as produced by `json.loads`. `Json.null` models Python
`None` appearing *inside* a decoded document. Numbers are restricted to
integers (no claim involves floats). -/
inductive Json where
  | null : Json
  | bool (b : Bool) : Json
  | num (n : Int) : Json
  | str (s : String) : Json
  | arr (xs : List Json) : Json
  | obj (kvs : List (String × Json)) : Json

/-- Lookup in a decoded JSON object. CPython keeps the *last* binding for a
duplicated key, so lookup scans from the right. -/
def dictGetJ (kvs : List (String × Json)) (k : String) : Option Json :=
  (kvs.reverse.find? (fun p => p.fst == k)).map Prod.snd

/-- Whitespace skipped by the JSON reader (per the JSON grammar). -/
def skipWs (l : List Char) : List Char :=
  l.dropWhile (fun c => c == ' ' || c == '\t' || c == '\n' || c == '\r')

/-- Value of a hex digit, if any (code points 48-57, 97-102, 65-70). -/
def hexVal (c : Char) : Option Nat :=
  let n := c.toNat
  if 48 ≤ n && n ≤ 57 then some (n - 48)
  else if 97 ≤ n && n ≤ 102 then some (n - 87)
  else if 65 ≤ n && n ≤ 70 then some (n - 55)
  else none

/-- Read exactly four hex digits. -/
def readHex4 : List Char → Option (Nat × List Char)
  | a :: b :: c :: d :: rest => do
    let x ← hexVal a
    let y ← hexVal b
    let z ← hexVal c
    let w ← hexVal d
    pure (((x * 16 + y) * 16 + z) * 16 + w, rest)
  | _ => none

/-- Read the body of a JSON string after the opening quote, with fuel. -/
def readStr : Nat → List Char → Except String (List Char × List Char)
  | 0, _ => Except.error "fuel exhausted"
  | _, [] => Except.error "Unterminated string"
  | fuel + 1, c :: rest =>
    if c == '"' then Except.ok ([], rest)
    else if c == '\\' then
      match rest with
      | [] => Except.error "Unterminated string"
      | e :: rest2 =>
        if e == 'u' then
          match readHex4 rest2 with
          | none => Except.error "Invalid \\uXXXX escape"
          | some (n, rest3) =>
            match readStr fuel rest3 with
            | Except.ok (cs, rem) => Except.ok (Char.ofNat n :: cs, rem)
            | Except.error m => Except.error m
        else
          match
            (if e == '"' then some '"'
             else if e == '\\' then some '\\'
             else if e == '/' then some '/'
             else if e == 'b' then some '\x08'
             else if e == 'f' then some '\x0c'
             else if e == 'n' then some '\n'
             else if e == 'r' then some '\r'
             else if e == 't' then some '\t'
             else none) with
          | none => Except.error "Invalid \\escape"
          | some ch =>
            match readStr fuel rest2 with
            | Except.ok (cs, rem) => Except.ok (ch :: cs, rem)
            | Except.error m => Except.error m
    else
      match readStr fuel rest with
      | Except.ok (cs, rem) => Except.ok (c :: cs, rem)
      | Except.error m => Except.error m

/-- Digits at the head of a list, paired with the remainder. -/
def readDigits : List Char → (List Char × List Char)
  | [] => ([], [])
  | c :: rest =>
    if c.isDigit then
      let (ds, rem) := readDigits rest
      (c :: ds, rem)
    else ([], c :: rest)

/-- Numeric value of a digit string. -/
def digitsToNat (ds : List Char) : Nat :=
  ds.foldl (fun acc c => acc * 10 + (c.toNat - '0'.toNat)) 0

/-- Read a JSON number (integers only; a fraction or exponent is rejected
as an unmodelled float literal). -/
def readNum (l : List Char) : Except String (Json × List Char) :=
  let (sign, l1) := match l with
    | '-' :: rest => (true, rest)
    | _ => (false, l)
  match readDigits l1 with
  | ([], _) => Except.error "Expecting value"
  | (ds, rem) =>
    match rem with
    | '.' :: _ => Except.error "float literals are not modelled"
    | 'e' :: _ => Except.error "float literals are not modelled"
    | 'E' :: _ => Except.error "float literals are not modelled"
    | _ =>
      let n : Int := Int.ofNat (digitsToNat ds)
      Except.ok (Json.num (if sign then -n else n), rem)

mutual

/-- Read one JSON value at the head of the input (whitespace already
skipped by the caller). Models CPython `json.loads`'s recursive decoder. -/
def readVal : Nat → List Char → Except String (Json × List Char)
  | 0, _ => Except.error "fuel exhausted"
  | fuel + 1, l =>
    match l with
    | [] => Except.error "Expecting value"
    | c :: rest =>
      if c == '"' then
        match readStr (fuel + 1) rest with
        | Except.ok (cs, rem) => Except.ok (Json.str (String.mk cs), rem)
        | Except.error m => Except.error m
      else if c == '\x7b' then
        match skipWs rest with
        | '\x7d' :: rem => Except.ok (Json.obj [], rem)
        | l2 => readObjItems fuel l2
      else if c == '[' then
        match skipWs rest with
        | ']' :: rem => Except.ok (Json.arr [], rem)
        | l2 => readArrItems fuel l2
      else if c == 't' then
        match rest with
        | 'r' :: 'u' :: 'e' :: rem => Except.ok (Json.bool true, rem)
        | _ => Except.error "Expecting value"
      else if c == 'f' then
        match rest with
        | 'a' :: 'l' :: 's' :: 'e' :: rem => Except.ok (Json.bool false, rem)
        | _ => Except.error "Expecting value"
      else if c == 'n' then
        match rest with
        | 'u' :: 'l' :: 'l' :: rem => Except.ok (Json.null, rem)
        | _ => Except.error "Expecting value"
      else if c == '-' || c.isDigit then readNum (c :: rest)
      else Except.error "Expecting value"

/-- Read the members of a JSON object after `\x7b` (nonempty case; the
input starts at the first key, whitespace skipped). -/
def readObjItems : Nat → List Char → Except String (Json × List Char)
  | 0, _ => Except.error "fuel exhausted"
  | fuel + 1, l =>
    match l with
    | '"' :: rest =>
      match readStr (fuel + 1) rest with
      | Except.error m => Except.error m
      | Except.ok (kcs, rem1) =>
        match skipWs rem1 with
        | ':' :: rem2 =>
          match readVal fuel (skipWs rem2) with
          | Except.error m => Except.error m
          | Except.ok (v, rem3) =>
            match skipWs rem3 with
            | ',' :: rem4 =>
              match readObjItems fuel (skipWs rem4) with
              | Except.ok (Json.obj kvs, rem5) =>
                Except.ok (Json.obj ((String.mk kcs, v) :: kvs), rem5)
              | Except.ok _ => Except.error "internal"
              | Except.error m => Except.error m
            | '\x7d' :: rem4 => Except.ok (Json.obj [(String.mk kcs, v)], rem4)
            | _ => Except.error "Expecting delimiter"
        | _ => Except.error "Expecting colon delimiter"
    | _ => Except.error "Expecting property name enclosed in double quotes"

/-- Read the elements of a JSON array after `[` (nonempty case). -/
def readArrItems : Nat → List Char → Except String (Json × List Char)
  | 0, _ => Except.error "fuel exhausted"
  | fuel + 1, l =>
    match readVal fuel l with
    | Except.error m => Except.error m
    | Except.ok (v, rem1) =>
      match skipWs rem1 with
      | ',' :: rem2 =>
        match readArrItems fuel (skipWs rem2) with
        | Except.ok (Json.arr xs, rem3) => Except.ok (Json.arr (v :: xs), rem3)
        | Except.ok _ => Except.error "internal"
        | Except.error m => Except.error m
      | ']' :: rem2 => Except.ok (Json.arr [v], rem2)
      | _ => Except.error "Expecting delimiter"

end

/-- Model of Python `json.loads`: parse one document, then require only
trailing whitespace. -/
def pyJsonLoads (s : String) : Except String Json :=
  match readVal (2 * s.data.length + 8) (skipWs s.data) with
  | Except.error m => Except.error m
  | Except.ok (v, rest) =>
    if (skipWs rest).isEmpty then Except.ok v else Except.error "Extra data"

/-! ## Streaming chunks

A streaming chunk is a Python dict. The fields below model the keys the
program reads. `type`, `content` and `error` carry `none` when the key is
absent (the producer only ever stores strings under them); `trace_id`
distinguishes an absent key (`none`) from a key holding Python `None`
(`some none`), because the producer does store `None` there when no trace
is active and the SSE endpoint indexes the key directly. -/
structure Chunk where
  type : Option String
  content : Option String
  trace_id : Option (Option String)
  error : Option String

/-- Classification performed by the reducer's `if`/`elif` chain on
`chunk.get('type')`, together with the `.get` payload reads
(`chunk.get('content', '')`, `chunk.get('trace_id')`, `chunk.get('error')`). -/
inductive ChunkKind where
  | token (s : String) : ChunkKind
  | done (t : Option String) : ChunkKind
  | err (m : Option String) : ChunkKind
  | other : ChunkKind

/-- Dispatch on `chunk.get('type')` as written in
`_stream_email_reducer_static` (email_generator.py lines 543-550). -/
def kindOf (c : Chunk) : ChunkKind :=
  match c.type with
  | some t =>
    if t = "token" then ChunkKind.token (c.content.getD "")
    else if t = "done" then ChunkKind.done c.trace_id.join
    else if t = "error" then ChunkKind.err c.error
    else ChunkKind.other
  | none => ChunkKind.other

/-- One iteration of the reducer's collection loop over
`(email_content, trace_id, error_message)`. -/
def redAccum (st : String × Option String × Option String) (c : Chunk) :
    String × Option String × Option String :=
  match kindOf c with
  | ChunkKind.token s => (st.1 ++ s, st.2.1, st.2.2)
  | ChunkKind.done t => (st.1, t, st.2.2)
  | ChunkKind.err m => (st.1, st.2.1, m)
  | ChunkKind.other => st

/-- Concatenation of the `token` chunks' contents, in order (observation
used to state the reducer claims). -/
def tokenConcat : List Chunk → String
  | [] => ""
  | c :: cs =>
    (match kindOf c with
     | ChunkKind.token s => s
     | _ => "") ++ tokenConcat cs

/-- The `chunk.get('trace_id')` values of the `done` chunks, in order. -/
def doneGets : List Chunk → List (Option String)
  | [] => []
  | c :: cs =>
    (match kindOf c with
     | ChunkKind.done t => [t]
     | _ => []) ++ doneGets cs

/-- The `chunk.get('error')` values of the `error` chunks, in order. -/
def errorGets : List Chunk → List (Option String)
  | [] => []
  | c :: cs =>
    (match kindOf c with
     | ChunkKind.err m => [m]
     | _ => []) ++ errorGets cs

/-! ## Result dictionaries -/

/-- Lookup in a modelled Python dict with unique string keys (`d.get(k)`
returning `none` when the key is absent). -/
def dGet (d : List (String × Option Json)) (k : String) : Option (Option Json) :=
  (d.find? (fun p => p.fst == k)).map Prod.snd

/-! ## The stream reducer (`_stream_email_reducer_static`) -/

/-- Inline cleaning block of the reducer (email_generator.py lines
554-560): strip, remove one surrounding code fence if present, strip. -/
def reducer_clean (s : String) : String :=
  let c1 := pyStrip s
  let c2 :=
    if sStarts c1 "```json\n" && sEnds c1 "\n```" then pySlice c1 8 4
    else if sStarts c1 "```" && sEnds c1 "```" then pySlice c1 3 3
    else c1
  pyStrip c2

/-- The reducer `_stream_email_reducer_static` (email_generator.py lines
510-588). `currentTraceId` models the ambient
`EmailGenerator._get_current_trace_id()` lookup used on the failure path.
The result is a Python dict; `none` models an uncaught exception (the
`.get` attribute access when the decoded document is not an object —
only `JSONDecodeError`/`KeyError` are caught by the source). -/
def stream_email_reducer_static (currentTraceId : Option String)
    (chunks : List Chunk) : Option (List (String × Option Json)) :=
  let acc := chunks.foldl redAccum ("", none, none)
  let email_content := acc.1
  let trace_id := acc.2.1
  let error_message := acc.2.2
  match pyJsonLoads (reducer_clean email_content) with
  | Except.ok (Json.obj kvs) =>
    let body : Json := (dictGetJ kvs "body").getD (Json.str "")
    let base : List (String × Option Json) :=
      [("email_subject", dictGetJ kvs "subject_line"), ("email_body", some body)]
    some (if truthyStr trace_id then base ++ [("trace_id", trace_id.map Json.str)] else base)
  | Except.ok _ => none
  | Except.error e =>
    let detail := "Failed to parse email: " ++ e
    let bodyTxt := if truthyStr error_message then error_message.getD "" else detail
    let tid : Option String := if truthyStr trace_id then trace_id else currentTraceId
    some [("email_subject", some (Json.str "Email generation failed")),
          ("email_body", some (Json.str bodyTxt)),
          ("trace_id", tid.map Json.str)]

/-! ## The `_clean_json_response` method (email_generator.py lines 388-411) -/

/-- Strip one surrounding markdown code fence (language-tagged or bare),
then strip surrounding whitespace. -/
def clean_json_response (s : String) : String :=
  let c :=
    if sStarts s "```json\n" && sEnds s "\n```" then pySlice s 8 4
    else if sStarts s "```" && sEnds s "```" then pySlice s 3 3
    else s
  pyStrip c

/-! ## The synchronous facade (`generate_email_with_retrieval`,
email_generator.py lines 461-508)

The event-loop bridging drains the streaming producer into a list of
chunks; the drained list is the `chunks` argument here. The facade then
applies the static reducer and renames keys. -/
def generate_email_with_retrieval (currentTraceId : Option String)
    (chunks : List Chunk) : Option (List (String × Option Json)) :=
  (stream_email_reducer_static currentTraceId chunks).map fun reduced =>
    [("subject_line", (dGet reduced "email_subject").getD (some (Json.str ""))),
     ("body", (dGet reduced "email_body").getD (some (Json.str ""))),
     ("trace_id", (dGet reduced "trace_id").getD none)]

/-- Modelled from the spec: the claimed shape of the facade output — the
reducer result with `email_subject` renamed to `subject_line` (empty
string when absent), `email_body` renamed to `body` (empty string when
absent) and `trace_id` carried over (absent becomes `None`). -/
def facade_rename_spec (reduced : List (String × Option Json)) :
    List (String × Option Json) :=
  [("subject_line", (dGet reduced "email_subject").getD (some (Json.str ""))),
   ("body", (dGet reduced "email_body").getD (some (Json.str ""))),
   ("trace_id", (dGet reduced "trace_id").getD none)]

/-! ## Fold lemmas relating the reducer loop to the observations -/

theorem foldl_redAccum_fst (cs : List Chunk) :
    ∀ st : String × Option String × Option String,
      (List.foldl redAccum st cs).1 = st.1 ++ tokenConcat cs := by
  induction cs with
  | nil => intro st; simp [tokenConcat]
  | cons c cs ih =>
    intro st
    simp only [List.foldl_cons, ih, tokenConcat]
    cases h : kindOf c <;> simp [redAccum, h, String.append_assoc]

theorem optGetLastD_cons {α : Type} (a d : α) (xs : List α) :
    ((a :: xs).getLast?).getD d = ((xs.getLast?).getD a) := by
  cases xs <;> simp [List.getLast?]

theorem foldl_redAccum_trace (cs : List Chunk) :
    ∀ st : String × Option String × Option String,
      (List.foldl redAccum st cs).2.1 = ((doneGets cs).getLast?).getD st.2.1 := by
  induction cs with
  | nil => intro st; simp [doneGets]
  | cons c cs ih =>
    intro st
    simp only [List.foldl_cons, ih, doneGets]
    cases h : kindOf c <;> simp [redAccum, h, optGetLastD_cons]

theorem foldl_redAccum_err (cs : List Chunk) :
    ∀ st : String × Option String × Option String,
      (List.foldl redAccum st cs).2.2 = ((errorGets cs).getLast?).getD st.2.2 := by
  induction cs with
  | nil => intro st; simp [errorGets]
  | cons c cs ih =>
    intro st
    simp only [List.foldl_cons, ih, errorGets]
    cases h : kindOf c <;> simp [redAccum, h, optGetLastD_cons]

/-! ## Concrete chunk sequences used as witnesses and counterexamples -/

/-- Scenario: a fenced JSON email split across three token chunks followed
by a `done` chunk carrying a trace id. -/
def demoChunks : List Chunk :=
  [⟨some "token", some "```json\n\x7b\"subject_line\": \"Hi\",", none, none⟩,
   ⟨some "token", some " \"body\": \"Bye\"", none, none⟩,
   ⟨some "token", some "\x7d\n```", none, none⟩,
   ⟨some "done", none, some (some "tr-123"), none⟩]

/-- Scenario: an unparseable model reply followed by an explicit error
chunk. -/
def demoFailChunks : List Chunk :=
  [⟨some "token", some "Sorry, I cannot comply", none, none⟩,
   ⟨some "error", none, none, some "boom"⟩]

/-- Two `done` chunks carrying different correlation ids. -/
def cexDoneChunks : List Chunk :=
  [⟨some "done", none, some (some "a"), none⟩,
   ⟨some "done", none, some (some "b"), none⟩]

/-! ## Claim theorems about the reducer -/

/-- C1: for every finite chunk sequence whose token chunks, concatenated
in order and passed through the fence/whitespace cleaning step, decode as
a JSON object with fields `subject_line = S` and `body = B`, the reducer
returns a result whose `email_subject` is `S`, whose `email_body` is `B`,
and whose `trace_id` is the id carried by the (single) `done` chunk when
one carrying a nonempty id is present. -/
theorem stream_reducer_success (ct : Option String) (chunks : List Chunk)
    (kvs : List (String × Json)) (S B : Json)
    (hp : pyJsonLoads (reducer_clean (tokenConcat chunks)) = Except.ok (Json.obj kvs))
    (hs : dictGetJ kvs "subject_line" = some S)
    (hb : dictGetJ kvs "body" = some B) :
    ∃ r, stream_email_reducer_static ct chunks = some r ∧
      dGet r "email_subject" = some (some S) ∧
      dGet r "email_body" = some (some B) ∧
      (∀ X : String, doneGets chunks = [some X] → X ≠ "" →
        dGet r "trace_id" = some (some (Json.str X))) := by
  have hc : (chunks.foldl redAccum ("", none, none)).1 = tokenConcat chunks := by
    simp [foldl_redAccum_fst]
  have ht : (chunks.foldl redAccum ("", none, none)).2.1
      = ((doneGets chunks).getLast?).getD none := by
    simp [foldl_redAccum_trace]
  unfold stream_email_reducer_static
  simp only [hc, ht, hp]
  cases htr : truthyStr (((doneGets chunks).getLast?).getD none) with
  | false =>
    refine ⟨_, rfl, ?_, ?_, ?_⟩
    · simp [dGet, hs]
    · simp [dGet, hb]
    · intro X hdone hX
      rw [hdone] at htr
      simp [truthyStr, List.getLast?] at htr
      exact absurd htr hX
  | true =>
    refine ⟨_, rfl, ?_, ?_, ?_⟩
    · simp [dGet, hs]
    · simp [dGet, hb]
    · intro X hdone hX
      rw [hdone]
      simp [dGet, List.getLast?]

/-- C2: for every finite chunk sequence whose cleaned token concatenation
fails to decode, the reducer returns (rather than raises) a result whose
subject is the fixed failure subject and whose body carries the parse
failure detail, unless an `error` chunk's nonempty message overrides it. -/
theorem stream_reducer_parse_failure (ct : Option String) (chunks : List Chunk)
    (e : String)
    (hp : pyJsonLoads (reducer_clean (tokenConcat chunks)) = Except.error e) :
    ∃ r, stream_email_reducer_static ct chunks = some r ∧
      dGet r "email_subject" = some (some (Json.str "Email generation failed")) ∧
      (errorGets chunks = [] →
        dGet r "email_body" = some (some (Json.str ("Failed to parse email: " ++ e)))) ∧
      (∀ m : String, errorGets chunks = [some m] → m ≠ "" →
        dGet r "email_body" = some (some (Json.str m))) := by
  have hc : (chunks.foldl redAccum ("", none, none)).1 = tokenConcat chunks := by
    simp [foldl_redAccum_fst]
  have he : (chunks.foldl redAccum ("", none, none)).2.2
      = ((errorGets chunks).getLast?).getD none := by
    simp [foldl_redAccum_err]
  unfold stream_email_reducer_static
  simp only [hc, he, hp]
  refine ⟨_, rfl, by simp [dGet], ?_, ?_⟩
  · intro herr
    rw [herr]
    simp [dGet, truthyStr, List.getLast?]
  · intro m herr hm
    rw [herr]
    simp [dGet, truthyStr, List.getLast?, hm]

/-- C3 counterexample: with two `done` chunks carrying ids `a` then `b`,
the reducer reports `b` — the id of the *last* `done` chunk — not the id
`a` of the first, refuting the claim as stated. -/
theorem reducer_first_done_cex :
    doneGets cexDoneChunks = [some "a", some "b"] ∧
    (∃ r, stream_email_reducer_static none cexDoneChunks = some r ∧
      dGet r "trace_id" = some (some (Json.str "b"))) ∧
    ("b" : String) ≠ "a" := by
  refine ⟨rfl, ⟨_, rfl, rfl⟩, by decide⟩

/-- C3 amended: the correlation id recorded by the reducer is the one
carried by the *last* `done` chunk; in particular, whenever a chunk
sequence ends in a `done` chunk carrying a nonempty id `X` and the
reducer returns a result, that result's correlation id is `X`. -/
theorem stream_reducer_last_done (ct : Option String) (cs : List Chunk)
    (c : Chunk) (X : String) (r : List (String × Option Json))
    (htype : c.type = some "done") (hid : c.trace_id = some (some X)) (hX : X ≠ "")
    (hr : stream_email_reducer_static ct (cs ++ [c]) = some r) :
    dGet r "trace_id" = some (some (Json.str X)) := by
  have hk : kindOf c = ChunkKind.done (some X) := by
    simp [kindOf, htype, hid]
  have ht : ((cs ++ [c]).foldl redAccum ("", none, none)).2.1 = some X := by
    rw [List.foldl_append]
    simp [redAccum, hk]
  unfold stream_email_reducer_static at hr
  simp only [ht] at hr
  cases hj : pyJsonLoads (reducer_clean (((cs ++ [c]).foldl redAccum ("", none, none)).1)) with
  | error e =>
    rw [hj] at hr
    simp only [truthyStr, Option.some.injEq] at hr
    rw [← hr]
    simp [dGet, truthyStr, hX]
  | ok v =>
    rw [hj] at hr
    cases v with
    | obj kvs =>
      simp only [truthyStr, Option.some.injEq] at hr
      rw [← hr]
      have : (X != "") = true := by simp [hX]
      simp [this, dGet]
    | null => simp at hr
    | bool b => simp at hr
    | num n => simp at hr
    | str s => simp at hr
    | arr xs => simp at hr

/-- C4 counterexample: `_clean_json_response` is not idempotent — on
`" ```abc``` "` one application only strips the whitespace, and a second
application then strips the revealed bare fence. -/
theorem clean_idempotent_cex :
    clean_json_response (clean_json_response " ```abc``` ") ≠
      clean_json_response " ```abc``` " := by decide

/-- C4 amended: `_clean_json_response` is the identity on already-clean
text: any string with no surrounding whitespace that does not begin with
a code fence is returned unchanged. -/
theorem clean_noop_on_clean (s : String)
    (hstrip : pyStrip s = s) (hfence : sStarts s "```" = false) :
    clean_json_response s = s := by
  have h8 : sStarts s "```json\n" = false := by
    cases h : sStarts s "```json\n" with
    | false => rfl
    | true =>
      exfalso
      have hsplit : ("```json\n" : String).data = ("```" : String).data ++ ("json\n" : String).data := rfl
      have : lStarts (("```" : String).data ++ ("json\n" : String).data) s.data = true := by
        rw [← hsplit]; exact h
      have := lStarts_of_append this
      rw [sStarts] at hfence
      rw [this] at hfence
      exact Bool.noConfusion hfence
  unfold clean_json_response
  simp [h8, hfence, hstrip]

/-- Witness for C1: the fenced three-token scenario decodes and the
reducer reports subject `Hi`, body `Bye` and the `done` chunk's id. -/
theorem stream_reducer_success_witness :
    ∃ r, stream_email_reducer_static none demoChunks = some r ∧
      dGet r "email_subject" = some (some (Json.str "Hi")) ∧
      dGet r "email_body" = some (some (Json.str "Bye")) ∧
      dGet r "trace_id" = some (some (Json.str "tr-123")) := by
  obtain ⟨r, h1, h2, h3, h4⟩ := stream_reducer_success none demoChunks
    [("subject_line", Json.str "Hi"), ("body", Json.str "Bye")]
    (Json.str "Hi") (Json.str "Bye") rfl rfl rfl
  exact ⟨r, h1, h2, h3, h4 "tr-123" rfl (by decide)⟩

/-- Witness for C2: an unparseable reply plus an explicit error chunk
yields the fixed failure subject and the error chunk's message as body. -/
theorem stream_reducer_parse_failure_witness :
    ∃ r, stream_email_reducer_static none demoFailChunks = some r ∧
      dGet r "email_subject" = some (some (Json.str "Email generation failed")) ∧
      dGet r "email_body" = some (some (Json.str "boom")) := by
  obtain ⟨r, h1, h2, _, h4⟩ := stream_reducer_parse_failure none demoFailChunks
    "Expecting value" rfl
  exact ⟨r, h1, h2, h4 "boom" rfl (by decide)⟩

/-- Witness for the amended C3: on the two-`done` sequence the reducer
reports the last id `b`. -/
theorem stream_reducer_last_done_witness :
    dGet [("email_subject", some (Json.str "Email generation failed")),
          ("email_body", some (Json.str "Failed to parse email: Expecting value")),
          ("trace_id", some (Json.str "b"))] "trace_id"
      = some (some (Json.str "b")) := by
  exact stream_reducer_last_done none [⟨some "done", none, some (some "a"), none⟩]
    ⟨some "done", none, some (some "b"), none⟩ "b" _ rfl rfl (by decide) rfl

/-- Witness for the amended C4: `"abc"` is already clean and is returned
unchanged. -/
theorem clean_noop_on_clean_witness :
    pyStrip "abc" = "abc" ∧ clean_json_response "abc" = "abc" :=
  ⟨rfl, clean_noop_on_clean "abc" rfl rfl⟩

/-! ## Claim theorem about the synchronous facade -/

/-- C5: the synchronous facade returns exactly the reducer result on the
drained chunk list, with keys renamed as the spec describes (and it
propagates the reducer's uncaught-exception case unchanged). -/
theorem generate_email_matches_reducer (ct : Option String) (chunks : List Chunk) :
    generate_email_with_retrieval ct chunks
      = (stream_email_reducer_static ct chunks).map facade_rename_spec ∧
    (∀ r, stream_email_reducer_static ct chunks = some r →
      ∃ out, generate_email_with_retrieval ct chunks = some out ∧
        out.map Prod.fst = ["subject_line", "body", "trace_id"] ∧
        dGet out "subject_line" = some ((dGet r "email_subject").getD (some (Json.str ""))) ∧
        dGet out "body" = some ((dGet r "email_body").getD (some (Json.str ""))) ∧
        dGet out "trace_id" = some ((dGet r "trace_id").getD none)) := by
  constructor
  · rfl
  · intro r hr
    refine ⟨facade_rename_spec r, ?_, rfl, rfl, rfl, rfl⟩
    unfold generate_email_with_retrieval
    rw [hr]
    rfl

/-- Witness for C5: the facade applied to the fenced scenario produces
the renamed reducer output. -/
theorem generate_email_matches_reducer_witness :
    ∃ out, generate_email_with_retrieval none demoChunks = some out ∧
      out.map Prod.fst = ["subject_line", "body", "trace_id"] ∧
      dGet out "subject_line" = some (some (Json.str "Hi")) := by
  obtain ⟨-, h2⟩ := generate_email_matches_reducer none demoChunks
  obtain ⟨out, ho, hk, hsub, -, -⟩ := h2 _ rfl
  refine ⟨out, ho, hk, ?_⟩
  rw [hsub]
  rfl

/-! ## MLflow documents and the message composer (`_create_messages`,
email_generator.py lines 210-250) -/

/-- An MLflow `Document` as used by the generator: `page_content` holds
markdown text, and the metadata dict holds the section `type` and the
customer name. -/
structure Document where
  id : String
  page_content : String
  mtype : String
  customer_name : String

/-- One formatted section of the user message:
`doc.metadata["type"].replace("_", " ").title() + ":\n" + doc.page_content`. -/
def docSection (d : Document) : String :=
  pyTitle (pyReplaceChar d.mtype '_' ' ') ++ ":\n" ++ d.page_content

/-- The formatted customer data block: sections joined by blank lines. -/
def customerInfo (docs : List Document) : String :=
  String.intercalate "\n\n" (docs.map docSection)

/-- The message composer `_create_messages`: a system message holding the
prompt template (empty string when no prompt is loaded) and a user message
holding the formatted customer data, with a `User Instructions` section
appended only when `user_input` is truthy. Messages are (role, content)
pairs. -/
def create_messages (promptTemplate : Option String) (docs : List Document)
    (user_input : Option String) : List (String × String) :=
  let ci := customerInfo docs
  let ci2 :=
    if truthyStr user_input then ci ++ "\n\nUser Instructions:\n" ++ user_input.getD ""
    else ci
  [("system", promptTemplate.getD ""), ("user", ci2)]

/-- C6: the composer always returns the ordered two-message list
`[system, user]`; with no instruction (absent or empty) the user content
is exactly the formatted customer data, and a nonempty instruction is
appended under a `User Instructions` heading. -/
theorem create_messages_shape (promptTemplate : Option String)
    (docs : List Document) (user_input : Option String) :
    (∃ usr, create_messages promptTemplate docs user_input
        = [("system", promptTemplate.getD ""), ("user", usr)]) ∧
    ((user_input = none ∨ user_input = some "") →
      create_messages promptTemplate docs user_input
        = [("system", promptTemplate.getD ""), ("user", customerInfo docs)]) ∧
    (∀ s : String, user_input = some s → s ≠ "" →
      create_messages promptTemplate docs user_input
        = [("system", promptTemplate.getD ""),
           ("user", customerInfo docs ++ "\n\nUser Instructions:\n" ++ s)]) := by
  refine ⟨⟨_, rfl⟩, ?_, ?_⟩
  · rintro (h | h) <;> simp [create_messages, h, truthyStr]
  · intro s hs hne
    simp [create_messages, hs, truthyStr, hne]

/-- Witness for C6: one document, instruction `"Keep it brief"`. -/
theorem create_messages_shape_witness :
    create_messages (some "TPL")
        [⟨"Acme_account", "# Account\n\ndata", "account", "Acme"⟩]
        (some "Keep it brief")
      = [("system", "TPL"),
         ("user", "Account:\n# Account\n\ndata\n\nUser Instructions:\nKeep it brief")] := by
  have h := (create_messages_shape (some "TPL")
    [⟨"Acme_account", "# Account\n\ndata", "account", "Acme"⟩]
    (some "Keep it brief")).2.2 "Keep it brief" rfl (by decide)
  rw [h]
  rfl

/-! ## The markdown formatter (`_format_json_as_markdown`,
email_generator.py lines 316-386) -/

/-- Python `'  ' * indent_level`. -/
def indentOf (n : Nat) : String := String.mk (List.replicate (2 * n) ' ')

/-- Python `', '.join` helper. -/
def sepList (l : List String) : String := String.intercalate ", " l

mutual

/-- Python `repr` of a decoded JSON value (string quoting approximated
with single quotes; only reached for values nested inside lists). -/
def pyRepr : Json → String
  | Json.null => "None"
  | Json.bool b => if b then "True" else "False"
  | Json.num n => toString n
  | Json.str s => "\x27" ++ s ++ "\x27"
  | Json.arr xs => "[" ++ sepList (reprList xs) ++ "]"
  | Json.obj kvs => "\x7b" ++ sepList (reprEntries kvs) ++ "\x7d"

def reprList : List Json → List String
  | [] => []
  | v :: rest => pyRepr v :: reprList rest

def reprEntries : List (String × Json) → List String
  | [] => []
  | (k, v) :: rest => ("\x27" ++ k ++ "\x27: " ++ pyRepr v) :: reprEntries rest

end

/-- Python `str(v)` as used in the formatter's f-strings. -/
def pyStrOf : Json → String
  | Json.str s => s
  | v => pyRepr v

/-- `k.replace('_', ' ').title()`. -/
def keyNameOf (k : String) : String := pyTitle (pyReplaceChar k '_' ' ')

mutual

/-- The recursive `format_value` helper of `_format_json_as_markdown`. -/
def format_value : Json → Nat → String
  | Json.obj kvs, ind => formatEntries kvs ind
  | Json.arr xs, ind => formatItems xs 0 ind
  | v, ind => indentOf ind ++ pyStrOf v ++ "\n"

/-- The dict branch of `format_value`: bold labels, recursing on nested
containers with one added indent level. -/
def formatEntries : List (String × Json) → Nat → String
  | [], _ => ""
  | (k, v) :: rest, ind =>
    (match v with
     | Json.obj kvs2 =>
       indentOf ind ++ "**" ++ keyNameOf k ++ ":**\n"
         ++ format_value (Json.obj kvs2) (ind + 1) ++ "\n"
     | Json.arr xs2 =>
       indentOf ind ++ "**" ++ keyNameOf k ++ ":**\n"
         ++ format_value (Json.arr xs2) (ind + 1) ++ "\n"
     | w => indentOf ind ++ "**" ++ keyNameOf k ++ ":** " ++ pyStrOf w ++ "\n\n")
    ++ formatEntries rest ind

/-- The list branch of `format_value`: bullet items, dict items recursing
under an `Item i:` label. -/
def formatItems : List Json → Nat → Nat → String
  | [], _, _ => ""
  | v :: rest, i, ind =>
    (match v with
     | Json.obj kvs2 =>
       indentOf ind ++ "- Item " ++ toString (i + 1) ++ ":\n"
         ++ format_value (Json.obj kvs2) (ind + 1)
     | w => indentOf ind ++ "- " ++ pyStrOf w ++ "\n")
    ++ formatItems rest (i + 1) ind

end

/-- `_format_json_as_markdown`: heading plus recursively formatted body,
stripped of surrounding whitespace. -/
def format_json_as_markdown (section_name : String) (data : Json) : String :=
  pyStrip ("# " ++ keyNameOf section_name ++ "\n\n" ++ format_value data 0)

/-! ## Customer retrieval (`_retrieve_customer_data`,
email_generator.py lines 252-314) -/

/-- Python exceptions that can escape `_retrieve_customer_data`.
`otherError` covers exceptions the source does not catch or raise itself
(`JSONDecodeError` on a malformed line, `KeyError`/`TypeError` on a
malformed record, `AttributeError`). -/
inductive PyExc where
  | fileNotFoundError (msg : String) : PyExc
  | valueError (msg : String) : PyExc
  | otherError (msg : String) : PyExc

/-- The JSONL path used by the source
(`mlflow_demo/data/input_data.jsonl`, resolved relative to the module). -/
def dataPath : String := "mlflow_demo/data/input_data.jsonl"

/-- Python subscription `v[k]`: `KeyError` on a missing key, `TypeError`
on a non-dict. -/
def jSub (v : Json) (k : String) : Except String Json :=
  match v with
  | Json.obj kvs =>
    match dictGetJ kvs k with
    | some x => Except.ok x
    | none => Except.error ("KeyError: \x27" ++ k ++ "\x27")
  | _ => Except.error "TypeError: value is not subscriptable"

/-- The loop condition `customer['account']['name'] == customer_name`. -/
def matchesName (c : Json) (name : String) : Except String Bool :=
  match jSub c "account" with
  | Except.error e => Except.error e
  | Except.ok acc =>
    match jSub acc "name" with
    | Except.error e => Except.error e
    | Except.ok (Json.str s) => Except.ok (s == name)
    | Except.ok _ => Except.ok false

/-- The search loop: first record whose account name equals the query. -/
def findCustomer : List Json → String → Except String (Option Json)
  | [], _ => Except.ok none
  | c :: rest, name =>
    match matchesName c name with
    | Except.error e => Except.error e
    | Except.ok true => Except.ok (some c)
    | Except.ok false => findCustomer rest name

/-- Python truthiness of a decoded JSON value. -/
def jTruthy : Json → Bool
  | Json.null => false
  | Json.bool b => b
  | Json.num n => n != 0
  | Json.str s => s != ""
  | Json.arr xs => !xs.isEmpty
  | Json.obj kvs => !kvs.isEmpty

/-- Python truthiness of `customer_data` (initially `None`). -/
def truthyOptJson : Option Json → Bool
  | none => false
  | some v => jTruthy v

/-- `json.loads` applied to each line of the data file in order; the
first failure propagates (the source's `try` only catches
`FileNotFoundError`). -/
def parseLines : List String → Except String (List Json)
  | [] => Except.ok []
  | l :: rest =>
    match pyJsonLoads l with
    | Except.error e => Except.error e
    | Except.ok v =>
      match parseLines rest with
      | Except.error e => Except.error e
      | Except.ok vs => Except.ok (v :: vs)

/-- Python `dict.items()` on the decoded object: duplicate keys keep
their first position and last value, as CPython's dict does. -/
def itemsOf : List (String × Json) → List (String × Json)
  | [] => []
  | (k, v) :: rest =>
    (k, (dictGetJ rest k).getD v) :: itemsOf (rest.filter (fun p => p.fst != k))
termination_by l => l.length
decreasing_by
  simp only [List.length_cons]
  exact Nat.lt_succ_of_le (List.length_filter_le _ _)

/-- The per-section `Document` construction loop
(email_generator.py lines 303-314). -/
def docsOf (customer_name : String) (kvs : List (String × Json)) : List Document :=
  kvs.map fun kv =>
    ⟨customer_name ++ "_" ++ kv.fst,
     format_json_as_markdown kv.fst kv.snd,
     kv.fst, customer_name⟩

/-- `_retrieve_customer_data`. The data file is `none` when missing,
otherwise the list of its lines. -/
def retrieve_customer_data (fileLines : Option (List String))
    (customer_name : String) : Except PyExc (List Document) :=
  match fileLines with
  | none =>
    Except.error (PyExc.fileNotFoundError
      ("Customer data file not found at " ++ dataPath))
  | some lines =>
    match parseLines lines with
    | Except.error e => Except.error (PyExc.otherError e)
    | Except.ok customers =>
      match findCustomer customers customer_name with
      | Except.error e => Except.error (PyExc.otherError e)
      | Except.ok customer_data =>
        if truthyOptJson customer_data then
          match customer_data with
          | some (Json.obj kvs) => Except.ok (docsOf customer_name (itemsOf kvs))
          | _ => Except.error (PyExc.otherError "AttributeError: items")
        else
          Except.error (PyExc.valueError
            ("Customer \x27" ++ customer_name ++ "\x27 not found in data file"))

theorem findCustomer_of_no_match (name : String) :
    ∀ cs : List Json, (∀ c ∈ cs, matchesName c name = Except.ok false) →
      findCustomer cs name = Except.ok none := by
  intro cs
  induction cs with
  | nil => intro _; rfl
  | cons c rest ih =>
    intro h
    have hc := h c (List.mem_cons_self c rest)
    have hr := ih (fun x hx => h x (List.mem_cons_of_mem c hx))
    simp [findCustomer, hc, hr]

/-- C7: customer lookup surfaces its two failure conditions as two
distinct error kinds — a missing data source is a `FileNotFoundError`,
while a readable source containing no record with the queried account
name is a `ValueError` — and never maps one condition to the other's
kind. -/
theorem retrieve_error_kinds (name : String) :
    (∃ m, retrieve_customer_data none name
        = Except.error (PyExc.fileNotFoundError m)) ∧
    (∀ lines customers, parseLines lines = Except.ok customers →
      (∀ c ∈ customers, matchesName c name = Except.ok false) →
      ∃ m, retrieve_customer_data (some lines) name
        = Except.error (PyExc.valueError m)) := by
  constructor
  · exact ⟨_, rfl⟩
  · intro lines customers hparse hnone
    refine ⟨"Customer \x27" ++ name ++ "\x27 not found in data file", ?_⟩
    simp only [retrieve_customer_data, hparse,
      findCustomer_of_no_match name customers hnone]
    rfl

/-- Witness for C7: a one-record file; the missing-file case raises the
source-unavailable kind and an unknown name raises the not-found kind. -/
theorem retrieve_error_kinds_witness :
    (∃ m, retrieve_customer_data none "Nobody"
        = Except.error (PyExc.fileNotFoundError m)) ∧
    (∃ m, retrieve_customer_data
        (some ["\x7b\"account\": \x7b\"name\": \"EcomSolutions LLC\"\x7d\x7d"]) "Nobody"
        = Except.error (PyExc.valueError m)) := by
  refine ⟨(retrieve_error_kinds "Nobody").1, ?_⟩
  refine (retrieve_error_kinds "Nobody").2
    ["\x7b\"account\": \x7b\"name\": \"EcomSolutions LLC\"\x7d\x7d"]
    [Json.obj [("account", Json.obj [("name", Json.str "EcomSolutions LLC")])]]
    rfl ?_
  intro c hc
  rw [List.mem_singleton] at hc
  rw [hc]
  rfl

/-! ## Feedback submission (`log_feedback`,
email_generator.py lines 716-775) -/

/-- `log_feedback`: the external `mlflow.log_feedback` call's outcome is
`callOutcome` (an exception message when it raised). The function always
returns a `(success, message)` result and never propagates the
exception. The request arguments are passed through to the external call
only. -/
def log_feedback (trace_id : String) (value : Bool) (comment : Option String)
    (user_name : Option String) (callOutcome : Except String Unit) :
    Bool × String :=
  match callOutcome with
  | Except.ok _ => (true, "Feedback submitted successfully")
  | Except.error e => (false, "Error submitting feedback: " ++ e)

/-- C8: for every input, `log_feedback` converts any exception of the
external feedback call into an in-band failure result and reports
success otherwise — in both cases returning a success flag and a
human-readable message, never raising. -/
theorem log_feedback_total (trace_id : String) (value : Bool)
    (comment user_name : Option String) (outcome : Except String Unit) :
    (outcome = Except.ok () →
      log_feedback trace_id value comment user_name outcome
        = (true, "Feedback submitted successfully")) ∧
    (∀ e, outcome = Except.error e →
      log_feedback trace_id value comment user_name outcome
        = (false, "Error submitting feedback: " ++ e)) := by
  constructor
  · intro h; rw [h]; rfl
  · intro e h; rw [h]; rfl

/-- Witness for C8: a raising external call is reported in-band. -/
theorem log_feedback_total_witness :
    log_feedback "tr-123" true (some "nice") none
        (Except.error "ConnectionError")
      = (false, "Error submitting feedback: ConnectionError") :=
  (log_feedback_total "tr-123" true (some "nice") none
    (Except.error "ConnectionError")).2 "ConnectionError" rfl

/-! ## JSON serialisation (`json.dumps` with default separators and
`ensure_ascii`) used by the SSE endpoint -/

/-- Hex digit character (lowercase, as CPython's encoder emits). -/
def hexDigit (n : Nat) : Char :=
  if n < 10 then Char.ofNat ('0'.toNat + n) else Char.ofNat ('a'.toNat + (n - 10))

/-- Four-digit hex rendering for `\uXXXX` escapes. -/
def hex4 (n : Nat) : String :=
  String.mk [hexDigit (n / 4096 % 16), hexDigit (n / 256 % 16),
             hexDigit (n / 16 % 16), hexDigit (n % 16)]

/-- Escape one character as CPython's `ensure_ascii` encoder does. -/
def escChar (c : Char) : String :=
  if c == '"' then "\\\""
  else if c == '\\' then "\\\\"
  else if c == '\n' then "\\n"
  else if c == '\r' then "\\r"
  else if c == '\t' then "\\t"
  else if c == '\x08' then "\\b"
  else if c == '\x0c' then "\\f"
  else if 0x20 ≤ c.toNat && c.toNat ≤ 0x7e then String.mk [c]
  else if c.toNat < 0x10000 then "\\u" ++ hex4 c.toNat
  else
    "\\u" ++ hex4 (0xd800 + (c.toNat - 0x10000) / 0x400)
      ++ "\\u" ++ hex4 (0xdc00 + (c.toNat - 0x10000) % 0x400)

/-- Serialise a JSON string literal. -/
def dumpStr (s : String) : String :=
  "\"" ++ String.join (s.data.map escChar) ++ "\""

mutual

/-- Model of `json.dumps` with the default `', '`/`': '` separators. -/
def jsonDumps : Json → String
  | Json.null => "null"
  | Json.bool b => if b then "true" else "false"
  | Json.num n => toString n
  | Json.str s => dumpStr s
  | Json.arr xs => "[" ++ sepList (dumpList xs) ++ "]"
  | Json.obj kvs => "\x7b" ++ sepList (dumpEntries kvs) ++ "\x7d"

def dumpList : List Json → List String
  | [] => []
  | v :: rest => jsonDumps v :: dumpList rest

def dumpEntries : List (String × Json) → List String
  | [] => []
  | (k, v) :: rest => (dumpStr k ++ ": " ++ jsonDumps v) :: dumpEntries rest

end

/-! ## The SSE streaming endpoint
(`api_generate_email_stream_with_retrieval`, server/routes/email.py
lines 141-175) -/

/-- The SSE frame for a token chunk. -/
def tokenFrame (c : String) : String :=
  "data: " ++ jsonDumps (Json.obj [("type", Json.str "token"), ("content", Json.str c)])
    ++ "\n\n"

/-- The SSE frame for a done chunk (`trace_id` may be `null`). -/
def doneFrame (t : Option String) : String :=
  "data: " ++ jsonDumps (Json.obj [("type", Json.str "done"),
    ("trace_id", match t with | some s => Json.str s | none => Json.null)]) ++ "\n\n"

/-- The SSE frame for an error chunk. -/
def errorFrame (m : String) : String :=
  "data: " ++ jsonDumps (Json.obj [("type", Json.str "error"), ("error", Json.str m)])
    ++ "\n\n"

/-- The closing frame emitted by the endpoint's `finally` block. -/
def closingFrame : String :=
  "data: " ++ jsonDumps (Json.obj [("type", Json.str "done")]) ++ "\n\n"

/-- The loop body: frames emitted for one chunk, or the message of the
`KeyError` raised by the subscriptions `chunk["type"]`,
`chunk["content"]`, `chunk["trace_id"]`, `chunk["error"]` when the key
is absent. Chunks of an unknown type produce no frame. -/
def sseOfChunk (c : Chunk) : Except String (List String) :=
  match c.type with
  | none => Except.error "\x27type\x27"
  | some t =>
    if t = "token" then
      match c.content with
      | none => Except.error "\x27content\x27"
      | some s => Except.ok [tokenFrame s]
    else if t = "done" then
      match c.trace_id with
      | none => Except.error "\x27trace_id\x27"
      | some v => Except.ok [doneFrame v]
    else if t = "error" then
      match c.error with
      | none => Except.error "\x27error\x27"
      | some m => Except.ok [errorFrame m]
    else Except.ok []

/-- The `async for` loop over the producer's chunks: the frames emitted
before any exception, and the exception message if one was raised. -/
def emitLoop : List Chunk → List String × Option String
  | [] => ([], none)
  | c :: cs =>
    match sseOfChunk c with
    | Except.error e => ([], some e)
    | Except.ok fs => (fs ++ (emitLoop cs).1, (emitLoop cs).2)

/-- The endpoint's `generate()` generator: stream the per-chunk frames;
any exception (from the loop body, or `producerExc` raised by the
producer after its chunks) is emitted as a typed error frame; the
`finally` block always appends the closing done frame. -/
def api_generate_email_stream_with_retrieval (chunks : List Chunk)
    (producerExc : Option String) : List String :=
  match emitLoop chunks with
  | (fs, some e) => fs ++ [errorFrame e, closingFrame]
  | (fs, none) =>
    match producerExc with
    | some e => fs ++ [errorFrame e, closingFrame]
    | none => fs ++ [closingFrame]

/-- A frame is one of the three typed frames or the closing done frame. -/
def sseFrameShape (f : String) : Prop :=
  (∃ c, f = tokenFrame c) ∨ (∃ t, f = doneFrame t) ∨
  (∃ m, f = errorFrame m) ∨ f = closingFrame

theorem sseOfChunk_shape (c : Chunk) (fs : List String)
    (h : sseOfChunk c = Except.ok fs) : ∀ f ∈ fs, sseFrameShape f := by
  intro f hf
  unfold sseOfChunk at h
  split at h
  · exact absurd h (by simp)
  · split at h
    · split at h
      · exact absurd h (by simp)
      · injection h with h2
        rw [← h2, List.mem_singleton] at hf
        exact Or.inl ⟨_, hf⟩
    · split at h
      · split at h
        · exact absurd h (by simp)
        · injection h with h2
          rw [← h2, List.mem_singleton] at hf
          exact Or.inr (Or.inl ⟨_, hf⟩)
      · split at h
        · split at h
          · exact absurd h (by simp)
          · injection h with h2
            rw [← h2, List.mem_singleton] at hf
            exact Or.inr (Or.inr (Or.inl ⟨_, hf⟩))
        · injection h with h2
          rw [← h2] at hf
          simp at hf

theorem emitLoop_cons_err (c : Chunk) (cs : List Chunk) (e : String)
    (hc : sseOfChunk c = Except.error e) : emitLoop (c :: cs) = ([], some e) := by
  unfold emitLoop
  rw [hc]

theorem emitLoop_cons_ok_fst (c : Chunk) (cs : List Chunk) (fs : List String)
    (hc : sseOfChunk c = Except.ok fs) :
    (emitLoop (c :: cs)).1 = fs ++ (emitLoop cs).1 := by
  conv_lhs => rw [emitLoop]
  rw [hc]

theorem emitLoop_shape (cs : List Chunk) :
    ∀ f ∈ (emitLoop cs).1, sseFrameShape f := by
  induction cs with
  | nil => intro f hf; simp [emitLoop] at hf
  | cons c cs ih =>
    intro f hf
    cases hc : sseOfChunk c with
    | error e =>
      rw [emitLoop_cons_err c cs e hc] at hf
      simp at hf
    | ok fs =>
      rw [emitLoop_cons_ok_fst c cs fs hc, List.mem_append] at hf
      cases hf with
      | inl h => exact sseOfChunk_shape c fs hc f h
      | inr h => exact ih f h

/-- C9: for every producer run, the SSE frame sequence consists only of
token/done/error frames, and its final frame is always the closing done
frame — including when the producer raises. -/
theorem sse_stream_shape (chunks : List Chunk) (producerExc : Option String) :
    (api_generate_email_stream_with_retrieval chunks producerExc).getLast?
        = some closingFrame ∧
    ∀ f ∈ api_generate_email_stream_with_retrieval chunks producerExc,
      sseFrameShape f := by
  cases hrec : emitLoop chunks with
  | mk fs raised =>
    have hshape : ∀ f ∈ fs, sseFrameShape f := by
      intro f hf
      exact emitLoop_shape chunks f (by rw [hrec]; exact hf)
    cases raised with
    | some e =>
      have hdef : api_generate_email_stream_with_retrieval chunks producerExc
          = fs ++ [errorFrame e, closingFrame] := by
        unfold api_generate_email_stream_with_retrieval
        rw [hrec]
      rw [hdef]
      constructor
      · have h2 : fs ++ [errorFrame e, closingFrame]
            = (fs ++ [errorFrame e]) ++ [closingFrame] := by simp
        rw [h2, List.getLast?_concat]
      · intro f hf
        simp only [List.mem_append, List.mem_cons, List.mem_singleton] at hf
        rcases hf with h | h | h
        · exact hshape f h
        · exact Or.inr (Or.inr (Or.inl ⟨e, h⟩))
        · simp at h
          exact Or.inr (Or.inr (Or.inr h))
    | none =>
      cases producerExc with
      | some e =>
        have hdef : api_generate_email_stream_with_retrieval chunks (some e)
            = fs ++ [errorFrame e, closingFrame] := by
          unfold api_generate_email_stream_with_retrieval
          rw [hrec]
        rw [hdef]
        constructor
        · have h2 : fs ++ [errorFrame e, closingFrame]
              = (fs ++ [errorFrame e]) ++ [closingFrame] := by simp
          rw [h2, List.getLast?_concat]
        · intro f hf
          simp only [List.mem_append, List.mem_cons, List.mem_singleton] at hf
          rcases hf with h | h | h
          · exact hshape f h
          · exact Or.inr (Or.inr (Or.inl ⟨e, h⟩))
          · simp at h
            exact Or.inr (Or.inr (Or.inr h))
      | none =>
        have hdef : api_generate_email_stream_with_retrieval chunks none
            = fs ++ [closingFrame] := by
          unfold api_generate_email_stream_with_retrieval
          rw [hrec]
        rw [hdef]
        constructor
        · rw [List.getLast?_concat]
        · intro f hf
          simp only [List.mem_append, List.mem_singleton] at hf
          rcases hf with h | h
          · exact hshape f h
          · exact Or.inr (Or.inr (Or.inr h))

/-- Witness for C9: a run that yields one token and one done chunk and
then raises still emits only typed frames and closes with the done
frame. -/
theorem sse_stream_shape_witness :
    (api_generate_email_stream_with_retrieval
        [⟨some "token", some "Hel", none, none⟩,
         ⟨some "done", none, some none, none⟩]
        (some "upstream reset")).getLast? = some closingFrame ∧
    sseFrameShape (tokenFrame "Hel") := by
  refine ⟨(sse_stream_shape
    [⟨some "token", some "Hel", none, none⟩,
     ⟨some "done", none, some none, none⟩] (some "upstream reset")).1, ?_⟩
  exact (sse_stream_shape
    [⟨some "token", some "Hel", none, none⟩,
     ⟨some "done", none, some none, none⟩] (some "upstream reset")).2
    (tokenFrame "Hel") (by rw [show api_generate_email_stream_with_retrieval
        [⟨some "token", some "Hel", none, none⟩,
         ⟨some "done", none, some none, none⟩] (some "upstream reset")
      = [tokenFrame "Hel", doneFrame none, errorFrame "upstream reset",
         closingFrame] from rfl]; simp)

/-! ## The companies listing (`get_companies`, server/routes/email.py
lines 85-89) -/

/-- One `\x7bname\x7d` object of the companies response. -/
structure CompanyEntry where
  name : String

/-- The comprehension body `\x7b'name': customer['account']['name']\x7d`.
A malformed record raises (modelled as an error); a non-string name would
make the subsequent `sorted` comparison fail, so it is modelled as an
error as well. -/
def companyOf (c : Json) : Except String CompanyEntry :=
  match jSub c "account" with
  | Except.error e => Except.error e
  | Except.ok acc =>
    match jSub acc "name" with
    | Except.error e => Except.error e
    | Except.ok (Json.str s) => Except.ok ⟨s⟩
    | Except.ok _ => Except.error "TypeError: unorderable account name"

/-- The full comprehension over the loaded customer records. -/
def companiesOf : List Json → Except String (List CompanyEntry)
  | [] => Except.ok []
  | c :: rest =>
    match companyOf c with
    | Except.error e => Except.error e
    | Except.ok entry =>
      match companiesOf rest with
      | Except.error e => Except.error e
      | Except.ok entries => Except.ok (entry :: entries)

/-- `GET /api/companies`: build the `\x7bname\x7d` objects and return them
sorted by the `name` key (`sorted(companies, key=lambda x: x['name'])`,
a stable sort modelled by `List.mergeSort`). -/
def get_companies (customerData : List Json) : Except String (List CompanyEntry) :=
  match companiesOf customerData with
  | Except.error e => Except.error e
  | Except.ok companies =>
    Except.ok (companies.mergeSort (fun a b => decide (a.name ≤ b.name)))

/-- C10: for every loaded data set on which the comprehension succeeds,
the companies endpoint returns exactly the records' account names as
`\x7bname\x7d` objects, in ascending order by name. -/
theorem get_companies_sorted (data : List Json) (companies : List CompanyEntry)
    (h : companiesOf data = Except.ok companies) :
    ∃ out, get_companies data = Except.ok out ∧
      out.Perm companies ∧
      List.Pairwise (fun a b => a.name ≤ b.name) out := by
  refine ⟨companies.mergeSort (fun a b => decide (a.name ≤ b.name)), ?_, ?_, ?_⟩
  · unfold get_companies
    rw [h]
  · exact List.mergeSort_perm companies _
  · have htrans : ∀ a b c : CompanyEntry,
        (fun a b => decide (a.name ≤ b.name)) a b = true →
        (fun a b => decide (a.name ≤ b.name)) b c = true →
        (fun a b => decide (a.name ≤ b.name)) a c = true := by
      intro a b c hab hbc
      simp only [decide_eq_true_eq] at hab hbc ⊢
      exact le_trans hab hbc
    have htotal : ∀ a b : CompanyEntry,
        ((fun a b => decide (a.name ≤ b.name)) a b
          || (fun a b => decide (a.name ≤ b.name)) b a) = true := by
      intro a b
      simp only [Bool.or_eq_true, decide_eq_true_eq]
      exact le_total a.name b.name
    have hs := @List.sorted_mergeSort CompanyEntry
      (fun a b => decide (a.name ≤ b.name)) htrans htotal companies
    exact hs.imp (fun hab => by
      simp only [decide_eq_true_eq] at hab
      exact hab)

/-- Witness for C10: three records come back sorted by account name. -/
theorem get_companies_sorted_witness :
    ∃ out, get_companies
        [Json.obj [("account", Json.obj [("name", Json.str "Beta")])],
         Json.obj [("account", Json.obj [("name", Json.str "Acme")])],
         Json.obj [("account", Json.obj [("name", Json.str "Cobalt")])]]
      = Except.ok out ∧
      out.Perm [⟨"Beta"⟩, ⟨"Acme"⟩, ⟨"Cobalt"⟩] ∧
      List.Pairwise (fun a b : CompanyEntry => a.name ≤ b.name) out :=
  get_companies_sorted
    [Json.obj [("account", Json.obj [("name", Json.str "Beta")])],
     Json.obj [("account", Json.obj [("name", Json.str "Acme")])],
     Json.obj [("account", Json.obj [("name", Json.str "Cobalt")])]]
    [⟨"Beta"⟩, ⟨"Acme"⟩, ⟨"Cobalt"⟩] rfl

end MlflowDemo
